import Mathlib

/-!
Verification development for the ai-lecturer processing pipeline.

The definitions below are a shallow embedding of the JavaScript sources:
`services/aiService.js` (script generation), `services/ttsService.js`
(speech synthesis), `services/fileProcessor.js` (extraction) and
`routes/upload.js` (the pipeline orchestrator), together with the
`models/Lecture.js` document shape.  External effects (the OpenAI
completion and TTS calls, S3 uploads, the pdf parser) are modelled as
oracle parameters: an `Option String` that is `some r` when the external
call succeeds with result `r` and `none` when it throws.  JavaScript
strings are modelled as Lean `String` (a list of characters); regular
expression operations are translated to explicit recursions on
`List Char`.
-/

set_option maxHeartbeats 1000000

/-- Apostrophe character, built from its code point so it can be embedded
into source string constants. -/
def apos : Char := Char.ofNat 39

/-- Membership in the JavaScript regular-expression class `\s`
(whitespace), by code point. -/
def isJsSpace (c : Char) : Bool :=
  decide (c.toNat = 9 ∨ c.toNat = 10 ∨ c.toNat = 11 ∨ c.toNat = 12 ∨ c.toNat = 13 ∨
    c.toNat = 32 ∨ c.toNat = 0xa0 ∨ c.toNat = 0x1680 ∨
    (0x2000 ≤ c.toNat ∧ c.toNat ≤ 0x200a) ∨ c.toNat = 0x2028 ∨ c.toNat = 0x2029 ∨
    c.toNat = 0x202f ∨ c.toNat = 0x205f ∨ c.toNat = 0x3000 ∨ c.toNat = 0xfeff)

/-- A double or single quote, the class `["']` used by
`cleanGeneratedContent`. -/
def isQuote (c : Char) : Bool := c = '"' ∨ c = apos

/-- The JavaScript replacement `.replace(/\s+/g, ' ')`: every maximal run
of whitespace becomes a single space. -/
def collapseWS : List Char → List Char
  | [] => []
  | [c] => if isJsSpace c then [' '] else [c]
  | c :: d :: cs =>
    if isJsSpace c then
      if isJsSpace d then collapseWS (d :: cs) else ' ' :: collapseWS (d :: cs)
    else c :: collapseWS (d :: cs)

/-- The JavaScript replacement `.replace(/\n+/g, ' ')`: every maximal run
of newlines becomes a single space. -/
def collapseNL : List Char → List Char
  | [] => []
  | [c] => if c = '\n' then [' '] else [c]
  | c :: d :: cs =>
    if c = '\n' then
      if d = '\n' then collapseNL (d :: cs) else ' ' :: collapseNL (d :: cs)
    else c :: collapseNL (d :: cs)

/-- Drop a leading quote character, when present. -/
def dropHeadQuote : List Char → List Char
  | [] => []
  | c :: cs => if isQuote c then cs else c :: cs

/-- Drop a trailing quote character, when present. -/
def dropLastQuote (l : List Char) : List Char :=
  match l.getLast? with
  | none => l
  | some c => if isQuote c then l.dropLast else l

/-- The JavaScript replacement `.replace(/^["']|["']$/g, '')`: one quote
character is removed from the front of the string and one from the back,
when present. -/
def stripQuotes (l : List Char) : List Char := dropLastQuote (dropHeadQuote l)

/-- The JavaScript `String.prototype.trim`, removing whitespace from both
ends. -/
def jsTrim (l : List Char) : List Char :=
  List.rdropWhile isJsSpace (List.dropWhile isJsSpace l)

/-- String wrapper for `jsTrim`. -/
def jsTrimStr (s : String) : String := ⟨jsTrim s.data⟩

/-- Embedding of `cleanGeneratedContent` from `services/aiService.js`:
strip surrounding quotes, replace newline runs with spaces, normalize
whitespace, and trim. -/
def cleanGeneratedContent (content : String) : String :=
  ⟨jsTrim (collapseWS (collapseNL (stripQuotes content.data)))⟩

/-- The JavaScript `substring(0, n)`, modelled as taking the first `n`
characters. -/
def jsSubstringTo (n : Nat) (s : String) : String := ⟨s.data.take n⟩

/-- The greeting table of `generateFallbackContent`, with the English
greeting used for any language absent from the table
(`languageGreetings[language] || languageGreetings.english`). -/
def languageGreeting (language : String) : String :=
  if language = "english" then "Hello everyone,"
  else if language = "russian" then "Здравствуйте,"
  else if language = "spanish" then "Hola a todos,"
  else if language = "french" then "Bonjour à tous,"
  else if language = "german" then "Hallo zusammen,"
  else "Hello everyone,"

/-- Embedding of `generateFallbackContent` from `services/aiService.js`:
a language-keyed greeting followed by the first 200 characters of the
slide content spliced into a fixed template. -/
def generateFallbackContent (slideContent language : String) : String :=
  languageGreeting language ++ " today we will be discussing the following topic: " ++
    jsSubstringTo 200 slideContent ++
    ". This is an important subject that we need to understand thoroughly. Let me explain the key points and provide some examples to help clarify the concepts."

/-- The refusal patterns of `validateGeneratedContent`, already
lower-cased (the source tests them case-insensitively). -/
def problematicPatterns : List String :=
  ["i" ++ apos.toString ++ "m sorry",
   "i cannot",
   "i don" ++ apos.toString ++ "t have access",
   "as an ai"]

/-- ASCII lower-casing of one character, the case folding relevant to
the `/i` flag on the ASCII refusal patterns. -/
def asciiLower (c : Char) : Char :=
  if 65 ≤ c.toNat ∧ c.toNat ≤ 90 then Char.ofNat (c.toNat + 32) else c

/-- Embedding of `validateGeneratedContent` from `services/aiService.js`:
non-empty, length between 50 and 2000, and no refusal pattern anchored at
the start (the `/^.../i` tests, modelled as prefix tests after ASCII
case folding). -/
def validateGeneratedContent (content : String) : Bool :=
  if content = "" then false
  else if content.length < 50 then false
  else if content.length > 2000 then false
  else !(problematicPatterns.any fun p =>
    List.isPrefixOf p.data (content.data.map asciiLower))

/-- Embedding of `generateLectureContent` from `services/aiService.js`.
The OpenAI chat completion is an oracle: `some out` is the provider text
(then the cleaned text is returned, with no validation applied), `none`
is a thrown provider error (then the deterministic fallback is
returned).  The prompt parameters only shape the request, not the
result. -/
def generateLectureContent (slideContent _basePrompt language : String)
    (providerOut : Option String) : String :=
  match providerOut with
  | some out => cleanGeneratedContent out
  | none => generateFallbackContent slideContent language

/-- Membership in the JavaScript class `\w` (ASCII letters, digits and
underscore; the source regexes carry no unicode flag). -/
def isWordChar (c : Char) : Bool :=
  decide ((97 ≤ c.toNat ∧ c.toNat ≤ 122) ∨ (65 ≤ c.toNat ∧ c.toNat ≤ 90) ∨
    (48 ≤ c.toNat ∧ c.toNat ≤ 57) ∨ c.toNat = 95)

/-- The character class kept by `prepareTextForTTS`'s replacement
`.replace(/[^\w\s.,!?-]/g, '')`. -/
def isTTSSafeChar (c : Char) : Bool :=
  isWordChar c || isJsSpace c || c = '.' || c = ',' || c = '!' || c = '?' || c = '-'

/-- The Russian branch of `prepareTextForTTS`: the replacement
`.replace(/[а-яё]/gi, char => char.toLowerCase())`, lower-casing Cyrillic
letters in place. -/
def cyrillicLower (c : Char) : Char :=
  if 0x410 ≤ c.toNat ∧ c.toNat ≤ 0x42f then Char.ofNat (c.toNat + 0x20)
  else if c.toNat = 0x401 then Char.ofNat 0x451
  else c

/-- Whether a character matches the class `[а-яё]` with the `i` flag. -/
def isCyrillicLetter (c : Char) : Bool :=
  decide ((0x430 ≤ c.toNat ∧ c.toNat ≤ 0x44f) ∨ c.toNat = 0x451 ∨
    (0x410 ≤ c.toNat ∧ c.toNat ≤ 0x42f) ∨ c.toNat = 0x401)

/-- The German branch of `prepareTextForTTS`: `.replace(/ß/g, 'ss')`. -/
def replaceEszett : List Char → List Char
  | [] => []
  | c :: cs => if c = 'ß' then 's' :: 's' :: replaceEszett cs else c :: replaceEszett cs

/-- Embedding of `prepareTextForTTS` from `services/ttsService.js`:
normalize whitespace, strip characters outside the safe set, trim, apply
the language-specific substitution, and hard-truncate to 4000 characters
appending an ellipsis. -/
def prepareTextForTTS (text language : String) : String :=
  let l0 := collapseWS text.data
  let l1 := l0.filter isTTSSafeChar
  let l2 := jsTrim l1
  let l3 :=
    if language = "russian" then l2.map (fun c => if isCyrillicLetter c then cyrillicLower c else c)
    else if language = "german" then replaceEszett l2
    else l2
  if l3.length > 4000 then ⟨l3.take 4000 ++ ['.', '.', '.']⟩ else ⟨l3⟩

/-- The words-per-minute table of `estimateAudioDuration`, with 150 as
the default rate. -/
def speakingRate (language : String) : Nat :=
  if language = "english" then 150
  else if language = "russian" then 120
  else if language = "spanish" then 140
  else if language = "french" then 130
  else if language = "german" then 125
  else 150

/-- Number of maximal whitespace runs in a list of characters; the flag
records whether the previous character was whitespace. -/
def countWSRuns : List Char → Bool → Nat
  | [], _ => 0
  | c :: cs, inRun =>
    if isJsSpace c then (if inRun then 0 else 1) + countWSRuns cs true
    else countWSRuns cs false

/-- The JavaScript `text.split(/\s+/).length`: one more than the number
of maximal whitespace runs (a run at either end contributes an empty
field). -/
def jsSplitWSCount (text : String) : Nat := countWSRuns text.data false + 1

/-- Embedding of `estimateAudioDuration` from `services/ttsService.js`:
`Math.ceil((wordCount / rate) * 60)` over the language's speaking rate. -/
def estimateAudioDuration (text language : String) : Nat :=
  let rate := speakingRate language
  let wordCount := jsSplitWSCount text
  (60 * wordCount + rate - 1) / rate

/-- Embedding of `generateSpeech` from `services/ttsService.js`.  The
provider call plus S3 upload is an oracle: `some location` is the stored
audio URL on success, `none` a thrown provider error, which the function
converts into the error `Failed to generate speech`. -/
def generateSpeech (providerResult : Option String) (text language : String) :
    Except String String :=
  let _cleanedText := prepareTextForTTS text language
  match providerResult with
  | some location => Except.ok location
  | none => Except.error "Failed to generate speech"

/-- One input item of `generateSpeechBatch`: a slide number with the text
to synthesize. -/
structure TextItem where
  slideNumber : Nat
  content : String
deriving DecidableEq

/-- One output item of `generateSpeechBatch`: either an audio URL, or a
null audio reference together with the caught error message. -/
structure TTSResult where
  slideNumber : Nat
  audioUrl : Option String
  content : String
  errorMsg : Option String
deriving DecidableEq

/-- The result `generateSpeechBatch` records for one item, given that
item's provider oracle. -/
def batchItem (providerResult : Option String) (t : TextItem) (language : String) :
    TTSResult :=
  match generateSpeech providerResult t.content language with
  | Except.ok url =>
    { slideNumber := t.slideNumber, audioUrl := some url, content := t.content,
      errorMsg := none }
  | Except.error msg =>
    { slideNumber := t.slideNumber, audioUrl := none, content := t.content,
      errorMsg := some msg }

/-- Embedding of `generateSpeechBatch` from `services/ttsService.js`:
sequential synthesis with a per-item try/catch, so a failed item is
recorded with a null audio URL and an error message and the remaining
items are still processed.  `provider k` is the oracle for the `k`-th
synthesis call; `j` is the index of the first item. -/
def generateSpeechBatch (provider : Nat → Option String) (language : String) :
    List TextItem → Nat → List TTSResult
  | [], _ => []
  | t :: ts, j => batchItem (provider j) t language :: generateSpeechBatch provider language ts (j + 1)

/-- One extracted slide candidate: the text content and the rendered
image reference, as produced by `processPDF`/`processPPTX`. -/
structure RawSlide where
  content : String
  imageUrl : String
deriving DecidableEq

/-- Embedding of `generateSlideImage` from `services/fileProcessor.js`:
the function renders an SVG and uploads it to S3, returning the stored
URL (or a placeholder URL on rendering failure).  The embedding keeps
the slide number, which is the only part of the URL the rest of the code
can depend on; the timestamped S3 key is abstracted. -/
def generateSlideImage (_content : String) (slideNumber : Nat) : String :=
  "s3://slides/slide-" ++ toString slideNumber ++ ".png"

/-- The page loop of `processPDF`: each page is trimmed and becomes a
slide only when its trimmed length exceeds 10; the image is numbered by
the page index (`i + 1`), whether or not earlier pages were skipped. -/
def processPages : List String → Nat → List RawSlide
  | [], _ => []
  | page :: rest, i =>
    let pageContent := jsTrimStr page
    if 10 < pageContent.length then
      { content := pageContent,
        imageUrl := generateSlideImage (jsSubstringTo 100 pageContent) (i + 1) } ::
        processPages rest (i + 1)
    else processPages rest (i + 1)

/-- The JavaScript `text.split('\n\n')`: split at each leftmost
non-overlapping occurrence of two consecutive newlines; `cur` is the
current field, accumulated in reverse. -/
def splitNN (cur : List Char) : List Char → List (List Char)
  | '\n' :: '\n' :: rest => cur.reverse :: splitNN [] rest
  | c :: rest => splitNN (c :: cur) rest
  | [] => [cur.reverse]

/-- String wrapper for `splitNN`, the split used by `processPDF`. -/
def jsSplitNN (s : String) : List String := (splitNN [] s.data).map fun l => ⟨l⟩

/-- Embedding of `processPDF` from `services/fileProcessor.js`.  The
`pdf-parse` call is an oracle: `some text` is the extracted document
text, `none` a parse failure, which the surrounding catch converts into
the error `Failed to process PDF file`.  The text is split on blank
lines, near-empty blocks are dropped, and each remaining block of
trimmed length above 10 becomes a slide. -/
def processPDF (parsed : Option String) : Except String (List RawSlide) :=
  match parsed with
  | none => Except.error "Failed to process PDF file"
  | some text =>
    let pages := (jsSplitNN text).filter fun page => 0 < (jsTrimStr page).length
    Except.ok (processPages pages 0)

/-- One slide subdocument of the persisted lecture, from
`models/Lecture.js`; fields the pipeline has not yet populated are
`none`/`0`. -/
structure Slide where
  slideNumber : Nat
  imageUrl : String
  content : String
  aiScript : Option String
  audioUrl : Option String
  duration : Nat
deriving DecidableEq

/-- The lecture document fields the pipeline reads or writes, from
`models/Lecture.js` (`metadata.slideCount` is flattened to
`slideCount`; the wall-clock `processingTime` is not modelled). -/
structure LectureState where
  status : String
  processingProgress : Nat
  slides : List Slide
  totalDuration : Nat
  errorMessage : Option String
  slideCount : Nat
deriving DecidableEq

/-- A partial-document update, one `Lecture.findByIdAndUpdate` call:
`none` fields are left untouched. -/
structure UpdateFields where
  status : Option String := none
  processingProgress : Option Nat := none
  slides : Option (List Slide) := none
  totalDuration : Option Nat := none
  errorMessage : Option String := none
  slideCount : Option Nat := none
deriving DecidableEq

/-- Apply one partial update to the persisted document. -/
def applyUpdate (st : LectureState) (u : UpdateFields) : LectureState :=
  { status := u.status.getD st.status,
    processingProgress := u.processingProgress.getD st.processingProgress,
    slides := u.slides.getD st.slides,
    totalDuration := u.totalDuration.getD st.totalDuration,
    errorMessage := match u.errorMessage with
      | some m => some m
      | none => st.errorMessage,
    slideCount := u.slideCount.getD st.slideCount }

/-- Apply a sequence of partial updates in order. -/
def applyAll (st : LectureState) : List UpdateFields → LectureState
  | [] => st
  | u :: us => applyAll (applyUpdate st u) us

/-- The persisted states a run passes through, starting from a given
state: the state before any update, then the state after each update. -/
def statesTrace (st : LectureState) : List UpdateFields → List LectureState
  | [] => [st]
  | u :: us => st :: statesTrace (applyUpdate st u) us

/-- A lecture as created before upload: status `uploading`, no slides,
no progress (`models/Lecture.js` schema defaults). -/
def initialLecture : LectureState :=
  { status := "uploading", processingProgress := 0, slides := [],
    totalDuration := 0, errorMessage := none, slideCount := 0 }

/-- The first update of `routes/upload.js`: status `processing`,
progress 10 (file accepted; the original-file metadata fields are not
modelled). -/
def updProcessing : UpdateFields :=
  { status := some "processing", processingProgress := some 10 }

/-- The second update of `routes/upload.js`: progress 20 after the S3
upload of the source file. -/
def updFileStored : UpdateFields := { processingProgress := some 20 }

/-- Slide skeletons persisted right after extraction: number, image and
raw content only (`slides.map((slide, index) => ...)`). -/
def skeletons : List RawSlide → Nat → List Slide
  | [], _ => []
  | s :: rest, i =>
    { slideNumber := i + 1, imageUrl := s.imageUrl, content := s.content,
      aiScript := none, audioUrl := none, duration := 0 } :: skeletons rest (i + 1)

/-- The third update of `routes/upload.js`: the slide skeletons, progress
40. -/
def updSkeletons (raws : List RawSlide) : UpdateFields :=
  { slides := some (skeletons raws 0), processingProgress := some 40 }

/-- The per-slide progress formula of `routes/upload.js`:
`Math.round(40 + ((i + 1) / n) * 40)`, written over the rationals as
`floor(x + 1/2)` with a common denominator `2 * n`. -/
def slideProgress (n i : Nat) : Nat := (80 * n + 80 * (i + 1) + n) / (2 * n)

/-- The progress-only update persisted after each successfully processed
slide. -/
def updSlideProgress (n i : Nat) : UpdateFields :=
  { processingProgress := some (slideProgress n i) }

/-- The final update of `routes/upload.js`: processed slides, total
duration (sum of the per-slide durations), status `ready`, progress 100
and the slide count. -/
def updFinal (processed : List Slide) : UpdateFields :=
  { slides := some processed,
    totalDuration := some ((processed.map Slide.duration).sum),
    status := some "ready", processingProgress := some 100,
    slideCount := some processed.length }

/-- The catch handler of `routes/upload.js`: status `error` plus the
thrown error's message, and nothing else. -/
def updError (msg : String) : UpdateFields :=
  { status := some "error", errorMessage := some msg }

/-- The per-slide loop of `routes/upload.js`: for each slide in order,
generate the script (always succeeds, possibly via the fallback), then
synthesize audio with `generateSpeech` (which throws on provider
failure, aborting the loop), push the processed slide with `duration`
hard-coded to 0, and persist the progress update.  Returns the persisted
updates together with either the processed slides or the first thrown
error. -/
def loopSlides (n : Nat) (ai tts : Nat → Option String) (language fullPrompt : String) :
    List RawSlide → Nat → List UpdateFields × Except String (List Slide)
  | [], _ => ([], Except.ok [])
  | s :: rest, i =>
    let aiScript := generateLectureContent s.content fullPrompt language (ai i)
    match generateSpeech (tts i) aiScript language with
    | Except.error msg => ([], Except.error msg)
    | Except.ok url =>
      let slide : Slide :=
        { slideNumber := i + 1, imageUrl := s.imageUrl, content := s.content,
          aiScript := some aiScript, audioUrl := some url, duration := 0 }
      match loopSlides n ai tts language fullPrompt rest (i + 1) with
      | (us, Except.error msg) => (updSlideProgress n i :: us, Except.error msg)
      | (us, Except.ok processed) => (updSlideProgress n i :: us, Except.ok (slide :: processed))

/-- Embedding of the `router.post('/lecture/:lectureId')` pipeline of
`routes/upload.js`, as the sequence of persisted updates of one run.
`extracted` is the result of `processPPTX`/`processPDF`; `ai i` and
`tts i` are the oracles for the `i`-th slide's completion and synthesis
calls.  Any thrown error reaches the catch handler, which persists
status `error` with the message. -/
def runPipeline (extracted : Except String (List RawSlide)) (ai tts : Nat → Option String)
    (language fullPrompt : String) : List UpdateFields :=
  match extracted with
  | Except.error msg => [updProcessing, updFileStored, updError msg]
  | Except.ok raws =>
    let pr := loopSlides raws.length ai tts language fullPrompt raws 0
    [updProcessing, updFileStored, updSkeletons raws] ++ pr.1 ++
      (match pr.2 with
       | Except.error msg => [updError msg]
       | Except.ok processed => [updFinal processed])

/-- The persisted lecture document at the end of one pipeline run. -/
def finalLecture (extracted : Except String (List RawSlide)) (ai tts : Nat → Option String)
    (language fullPrompt : String) : LectureState :=
  applyAll initialLecture (runPipeline extracted ai tts language fullPrompt)

/-- The progress value persisted after a list of updates, starting from
`p`. -/
def progAfter (p : Nat) : List UpdateFields → Nat
  | [] => p
  | u :: us => progAfter (u.processingProgress.getD p) us

/-- The progress values written by a list of updates never decrease,
starting from `p`. -/
def progMono (p : Nat) : List UpdateFields → Prop
  | [] => True
  | u :: us => p ≤ u.processingProgress.getD p ∧ progMono (u.processingProgress.getD p) us

/-- The lecture state right after the skeleton update, for a run whose
extraction returned `raws`. -/
def afterSkeletons (raws : List RawSlide) : LectureState :=
  { status := "processing", processingProgress := 40, slides := skeletons raws 0,
    totalDuration := 0, errorMessage := none, slideCount := 0 }

/-- Adjacent characters are never both whitespace. -/
def noTwoSpaces (a b : Char) : Prop := isJsSpace a = true → isJsSpace b = false

/-- Whether a string starts with a quote character. -/
def startsWithQuote (s : String) : Bool :=
  match s.data with
  | [] => false
  | c :: _ => isQuote c

/-- Whether a string ends with a quote character. -/
def endsWithQuote (s : String) : Bool :=
  match s.data.getLast? with
  | none => false
  | some c => isQuote c

example : cleanGeneratedContent "\"\"a\"\"" = "\"a\"" := by decide

example : cleanGeneratedContent "\"a\"" = "a" := by decide

example : cleanGeneratedContent "  a \n\n b  " = "a b" := by decide

example : prepareTextForTTS "Привет мир! hello" "russian" = "! hello" := by decide

example : estimateAudioDuration "one two three" "english" = 2 := by decide

example : estimateAudioDuration "hello" "english" = 1 := by decide

example :
    (finalLecture (Except.ok [⟨"slide one text here", "img1"⟩])
      (fun _ => some "A sufficiently long generated script about slide one text here for us.")
      (fun _ => some "s3://audio/a1.mp3") "english" "p").status = "ready" := by decide

example :
    (finalLecture (Except.ok [⟨"slide one text here", "img1"⟩, ⟨"slide two", "img2"⟩])
      (fun _ => some "A script.") (fun i => if i = 0 then none else some "u")
      "english" "p").status = "error" := by decide

theorem applyAll_append (st : LectureState) (us vs : List UpdateFields) :
    applyAll st (us ++ vs) = applyAll (applyAll st us) vs := by
  induction us generalizing st with
  | nil => rfl
  | cons u us ih => simp [applyAll, ih]

theorem statesTrace_cons_head (st : LectureState) (us : List UpdateFields) :
    ∃ t, statesTrace st us = st :: t := by
  cases us with
  | nil => exact ⟨[], rfl⟩
  | cons u us => exact ⟨statesTrace (applyUpdate st u) us, rfl⟩

theorem progMono_append {p : Nat} {us vs : List UpdateFields}
    (h1 : progMono p us) (h2 : progMono (progAfter p us) vs) : progMono p (us ++ vs) := by
  induction us generalizing p with
  | nil => exact h2
  | cons u us ih => exact ⟨h1.1, ih h1.2 h2⟩

theorem progAfter_append (p : Nat) (us vs : List UpdateFields) :
    progAfter p (us ++ vs) = progAfter (progAfter p us) vs := by
  induction us generalizing p with
  | nil => rfl
  | cons u us ih => simp [progAfter, ih]

theorem chain_statesTrace {us : List UpdateFields} {st : LectureState}
    (h : progMono st.processingProgress us) :
    List.Chain' (fun a b => a.processingProgress ≤ b.processingProgress)
      (statesTrace st us) := by
  induction us generalizing st with
  | nil => simp [statesTrace]
  | cons u us ih =>
    obtain ⟨t, ht⟩ := statesTrace_cons_head (applyUpdate st u) us
    have hch := @ih (applyUpdate st u) h.2
    rw [ht] at hch
    simp only [statesTrace]
    rw [ht]
    exact List.chain'_cons.mpr ⟨h.1, hch⟩

theorem slideProgress_mono {n i j : Nat} (h : i ≤ j) :
    slideProgress n i ≤ slideProgress n j :=
  Nat.div_le_div_right (by omega)

theorem slideProgress_ge_40 {n : Nat} (hn : 0 < n) (i : Nat) :
    40 ≤ slideProgress n i := by
  rw [slideProgress, Nat.le_div_iff_mul_le (by omega)]
  omega

theorem slideProgress_le_100 {n i : Nat} (hn : i < n) :
    slideProgress n i ≤ 100 := by
  have h1 : 80 * n + 80 * (i + 1) + n ≤ 100 * (2 * n) := by omega
  have h2 : slideProgress n i ≤ 100 * (2 * n) / (2 * n) := Nat.div_le_div_right h1
  rwa [Nat.mul_div_cancel _ (by omega : 0 < 2 * n)] at h2

theorem loop_progMono (n : Nat) (ai tts : Nat → Option String) (language fullPrompt : String) :
    ∀ (raw : List RawSlide) (i p : Nat), i + raw.length ≤ n → p ≤ 100 →
      (raw = [] ∨ p ≤ slideProgress n i) →
      progMono p (loopSlides n ai tts language fullPrompt raw i).1 ∧
        progAfter p (loopSlides n ai tts language fullPrompt raw i).1 ≤ 100 := by
  intro raw
  induction raw with
  | nil => intro i p _ hp _; exact ⟨trivial, hp⟩
  | cons s rest ih =>
    intro i p hlen hp hstep
    have hin : i < n := by simp at hlen; omega
    have hps : p ≤ slideProgress n i := by
      rcases hstep with h | h
      · exact absurd h (by simp)
      · exact h
    have hnext : slideProgress n i ≤ 100 := slideProgress_le_100 hin
    have hrec := ih (i + 1) (slideProgress n i) (by simp at hlen ⊢; omega) hnext
      (Or.inr (slideProgress_mono (by omega)))
    simp only [loopSlides]
    cases htts : generateSpeech (tts i) (generateLectureContent s.content fullPrompt language (ai i)) language with
    | error msg => exact ⟨trivial, hp⟩
    | ok url =>
      cases hrest : loopSlides n ai tts language fullPrompt rest (i + 1) with
      | mk us res =>
        rw [hrest] at hrec
        cases res with
        | error msg =>
          exact ⟨⟨hps, hrec.1⟩, hrec.2⟩
        | ok processed =>
          exact ⟨⟨hps, hrec.1⟩, hrec.2⟩

theorem pipeline_progMono (extracted : Except String (List RawSlide))
    (ai tts : Nat → Option String) (language fullPrompt : String) :
    progMono 0 (runPipeline extracted ai tts language fullPrompt) := by
  cases extracted with
  | error msg =>
    simp [runPipeline, progMono, updProcessing, updFileStored, updError]
  | ok raws =>
    have hloop := loop_progMono raws.length ai tts language fullPrompt raws 0 40
      (by omega) (by omega)
      (by
        cases raws with
        | nil => exact Or.inl rfl
        | cons s rest => exact Or.inr (slideProgress_ge_40 (by simp) 0))
    simp only [runPipeline]
    have h40 : progAfter 0 [updProcessing, updFileStored, updSkeletons raws] = 40 := by
      simp [progAfter, updProcessing, updFileStored, updSkeletons]
    refine progMono_append (progMono_append ?_ ?_) ?_
    · simp [progMono, updProcessing, updFileStored, updSkeletons]
    · rw [h40]; exact hloop.1
    · rw [progAfter_append, h40]
      cases hres : (loopSlides raws.length ai tts language fullPrompt raws 0).2 with
      | error msg => simp [progMono, updError]
      | ok processed =>
        refine ⟨?_, trivial⟩
        simp [updFinal, Option.getD]
        exact hloop.2

theorem loop_mem_shape (n : Nat) (ai tts : Nat → Option String) (language fullPrompt : String) :
    ∀ (raw : List RawSlide) (i : Nat),
      ∀ u ∈ (loopSlides n ai tts language fullPrompt raw i).1, ∃ j, u = updSlideProgress n j := by
  intro raw
  induction raw with
  | nil => intro i u hu; simp [loopSlides] at hu
  | cons s rest ih =>
    intro i u hu
    simp only [loopSlides] at hu
    cases htts : generateSpeech (tts i) (generateLectureContent s.content fullPrompt language (ai i)) language with
    | error msg => rw [htts] at hu; simp at hu
    | ok url =>
      rw [htts] at hu
      cases hrest : loopSlides n ai tts language fullPrompt rest (i + 1) with
      | mk us res =>
        rw [hrest] at hu
        cases res with
        | error msg =>
          rcases List.mem_cons.mp hu with h | h
          · exact ⟨i, h⟩
          · exact ih (i + 1) u (by rw [hrest]; exact h)
        | ok processed =>
          rcases List.mem_cons.mp hu with h | h
          · exact ⟨i, h⟩
          · exact ih (i + 1) u (by rw [hrest]; exact h)

theorem runPipeline_mem (extracted : Except String (List RawSlide))
    (ai tts : Nat → Option String) (language fullPrompt : String) :
    ∀ u ∈ runPipeline extracted ai tts language fullPrompt,
      u = updProcessing ∨ u = updFileStored ∨
      (∃ raws, u = updSkeletons raws) ∨ (∃ n j, u = updSlideProgress n j) ∨
      (∃ m, u = updError m) ∨ (∃ ps, u = updFinal ps) := by
  intro u hu
  cases extracted with
  | error msg =>
    simp only [runPipeline, List.mem_cons, List.not_mem_nil, or_false] at hu
    rcases hu with h | h | h
    · exact .inl h
    · exact .inr (.inl h)
    · exact .inr (.inr (.inr (.inr (.inl ⟨msg, h⟩))))
  | ok raws =>
    simp only [runPipeline] at hu
    rcases List.mem_append.mp hu with h1 | h2
    · rcases List.mem_append.mp h1 with ha | hb
      · simp only [List.mem_cons, List.not_mem_nil, or_false] at ha
        rcases ha with h | h | h
        · exact .inl h
        · exact .inr (.inl h)
        · exact .inr (.inr (.inl ⟨raws, h⟩))
      · obtain ⟨j, hj⟩ := loop_mem_shape raws.length ai tts language fullPrompt raws 0 u hb
        exact .inr (.inr (.inr (.inl ⟨raws.length, j, hj⟩)))
    · cases hres : (loopSlides raws.length ai tts language fullPrompt raws 0).2 with
      | error m =>
        rw [hres] at h2; simp only [List.mem_cons, List.not_mem_nil, or_false] at h2
        exact .inr (.inr (.inr (.inr (.inl ⟨m, h2⟩))))
      | ok processed =>
        rw [hres] at h2; simp only [List.mem_cons, List.not_mem_nil, or_false] at h2
        exact .inr (.inr (.inr (.inr (.inr ⟨processed, h2⟩))))

theorem applyAll_progress_only {us : List UpdateFields}
    (h : ∀ u ∈ us, ∃ n j, u = updSlideProgress n j) (st : LectureState) :
    applyAll st us = { st with processingProgress := progAfter st.processingProgress us } := by
  induction us generalizing st with
  | nil => rfl
  | cons u us ih =>
    obtain ⟨n, j, hj⟩ := h u (List.mem_cons_self u us)
    subst hj
    have hstep : applyUpdate st (updSlideProgress n j) =
        { st with processingProgress := slideProgress n j } := rfl
    simp only [applyAll, progAfter, hstep]
    exact ih (fun v hv => h v (List.mem_cons_of_mem _ hv)) _

theorem finalLecture_ok {raws : List RawSlide} {ai tts : Nat → Option String}
    {language fullPrompt : String} {processed : List Slide}
    (hres : (loopSlides raws.length ai tts language fullPrompt raws 0).2 =
      Except.ok processed) :
    finalLecture (Except.ok raws) ai tts language fullPrompt =
      { status := "ready", processingProgress := 100, slides := processed,
        totalDuration := (processed.map Slide.duration).sum, errorMessage := none,
        slideCount := processed.length } := by
  have hshape := loop_mem_shape raws.length ai tts language fullPrompt raws 0
  have h3 : applyAll initialLecture [updProcessing, updFileStored, updSkeletons raws] =
      afterSkeletons raws := rfl
  simp only [finalLecture, runPipeline, hres]
  rw [applyAll_append, applyAll_append, h3,
    applyAll_progress_only (fun u hu => (hshape u hu).elim fun j hj => ⟨raws.length, j, hj⟩)
      (afterSkeletons raws)]
  rfl

theorem finalLecture_loop_error {raws : List RawSlide} {ai tts : Nat → Option String}
    {language fullPrompt : String} {msg : String}
    (hres : (loopSlides raws.length ai tts language fullPrompt raws 0).2 =
      Except.error msg) :
    finalLecture (Except.ok raws) ai tts language fullPrompt =
      { status := "error",
        processingProgress :=
          progAfter 40 (loopSlides raws.length ai tts language fullPrompt raws 0).1,
        slides := skeletons raws 0, totalDuration := 0, errorMessage := some msg,
        slideCount := 0 } := by
  have hshape := loop_mem_shape raws.length ai tts language fullPrompt raws 0
  have h3 : applyAll initialLecture [updProcessing, updFileStored, updSkeletons raws] =
      afterSkeletons raws := rfl
  simp only [finalLecture, runPipeline, hres]
  rw [applyAll_append, applyAll_append, h3,
    applyAll_progress_only (fun u hu => (hshape u hu).elim fun j hj => ⟨raws.length, j, hj⟩)
      (afterSkeletons raws)]
  rfl

theorem finalLecture_extract_error {msg : String} {ai tts : Nat → Option String}
    {language fullPrompt : String} :
    finalLecture (Except.error msg) ai tts language fullPrompt =
      { status := "error", processingProgress := 20, slides := [], totalDuration := 0,
        errorMessage := some msg, slideCount := 0 } := rfl

theorem loop_ok_elems (n : Nat) (ai tts : Nat → Option String) (language fullPrompt : String) :
    ∀ (raw : List RawSlide) (i : Nat) (processed : List Slide),
      (loopSlides n ai tts language fullPrompt raw i).2 = Except.ok processed →
      processed.length = raw.length ∧
      ∀ j r, raw[j]? = some r → ∃ url, tts (i + j) = some url ∧
        processed[j]? = some
          { slideNumber := i + j + 1, imageUrl := r.imageUrl, content := r.content,
            aiScript := some (generateLectureContent r.content fullPrompt language (ai (i + j))),
            audioUrl := some url, duration := 0 } := by
  intro raw
  induction raw with
  | nil =>
    intro i processed hres
    simp only [loopSlides] at hres
    cases hres
    exact ⟨rfl, by intro j r hj; simp at hj⟩
  | cons s rest ih =>
    intro i processed hres
    cases htts : tts i with
    | none => simp [loopSlides, generateSpeech, htts] at hres
    | some url =>
      simp only [loopSlides, generateSpeech, htts] at hres
      cases hrest : loopSlides n ai tts language fullPrompt rest (i + 1) with
      | mk us res =>
        rw [hrest] at hres
        cases res with
        | error m => simp at hres
        | ok ps =>
          simp only [] at hres
          cases hres
          have ihr := ih (i + 1) ps (by rw [hrest])
          refine ⟨by simp [ihr.1], ?_⟩
          intro j r hj
          cases j with
          | zero =>
            simp only [List.getElem?_cons_zero, Option.some.injEq] at hj
            subst hj
            exact ⟨url, by simpa using htts, by simp⟩
          | succ j =>
            simp only [List.getElem?_cons_succ] at hj
            obtain ⟨url', h1, h2⟩ := ihr.2 j r hj
            refine ⟨url', ?_, ?_⟩
            · rw [show i + (j + 1) = i + 1 + j by omega]; exact h1
            · rw [show i + (j + 1) + 1 = i + 1 + j + 1 by omega,
                show i + (j + 1) = i + 1 + j by omega]
              simpa using h2

/-- C3: within a single pipeline run the persisted progress value is
monotonically non-decreasing at every update (in particular at every
update made while status is not `error`; the error update does not touch
progress at all), and the unique update that sets status `ready` sets
progress to exactly 100. -/
theorem c3_progress_monotone_and_100_at_ready
    (extracted : Except String (List RawSlide)) (ai tts : Nat → Option String)
    (language fullPrompt : String) :
    List.Chain' (fun a b => a.processingProgress ≤ b.processingProgress)
      (statesTrace initialLecture (runPipeline extracted ai tts language fullPrompt)) ∧
    ∀ u ∈ runPipeline extracted ai tts language fullPrompt,
      u.status = some "ready" → u.processingProgress = some 100 := by
  constructor
  · exact chain_statesTrace (pipeline_progMono extracted ai tts language fullPrompt)
  · intro u hu hst
    rcases runPipeline_mem extracted ai tts language fullPrompt u hu with
      h | h | ⟨r, h⟩ | ⟨n, j, h⟩ | ⟨m, h⟩ | ⟨ps, h⟩ <;> subst h
    · simp [updProcessing] at hst
    · simp [updFileStored] at hst
    · simp [updSkeletons] at hst
    · simp [updSlideProgress] at hst
    · simp [updError] at hst
    · rfl

/-- Witness for C3 at a concrete run: a PDF yielding no slides, where
the final update sets `ready` with progress 100. -/
theorem c3_witness :
    List.Chain' (fun a b => a.processingProgress ≤ b.processingProgress)
      (statesTrace initialLecture
        (runPipeline (Except.ok []) (fun _ => none) (fun _ => none) "english" "p")) ∧
    (updFinal []).processingProgress = some 100 :=
  ⟨(c3_progress_monotone_and_100_at_ready (Except.ok []) (fun _ => none) (fun _ => none)
      "english" "p").1,
   (c3_progress_monotone_and_100_at_ready (Except.ok []) (fun _ => none) (fun _ => none)
      "english" "p").2 (updFinal []) (by decide) (by decide)⟩

/-- C5 counterexample: a run that reaches `ready` without the status
`generating` ever being persisted — the orchestrator writes only
`processing`, then `ready`. -/
theorem c5_counterexample :
    ((runPipeline (Except.ok [⟨"slide one text here", "img1"⟩])
        (fun _ => some "A sufficiently long generated script about slide one text here for us.")
        (fun _ => some "s3://audio/a1.mp3") "english" "p").filterMap
          UpdateFields.status) = ["processing", "ready"] ∧
    "generating" ∉ ((runPipeline (Except.ok [⟨"slide one text here", "img1"⟩])
        (fun _ => some "A sufficiently long generated script about slide one text here for us.")
        (fun _ => some "s3://audio/a1.mp3") "english" "p").filterMap
          UpdateFields.status) ∧
    (finalLecture (Except.ok [⟨"slide one text here", "img1"⟩])
        (fun _ => some "A sufficiently long generated script about slide one text here for us.")
        (fun _ => some "s3://audio/a1.mp3") "english" "p").status = "ready" := by
  refine ⟨by decide, by decide, by decide⟩

/-- C5 amended: once the file is accepted the persisted status sequence
of a run is exactly `processing` then `ready`, or `processing` then
`error`: it never moves backward and never skips `processing`, but the
status `generating` is never written by the orchestrator. -/
theorem c5_amended (extracted : Except String (List RawSlide))
    (ai tts : Nat → Option String) (language fullPrompt : String) :
    (runPipeline extracted ai tts language fullPrompt).filterMap UpdateFields.status =
      ["processing", "ready"] ∨
    (runPipeline extracted ai tts language fullPrompt).filterMap UpdateFields.status =
      ["processing", "error"] := by
  cases extracted with
  | error msg =>
    right
    simp [runPipeline, List.filterMap_cons, updProcessing, updFileStored, updError]
  | ok raws =>
    have hloopnil :
        (loopSlides raws.length ai tts language fullPrompt raws 0).1.filterMap
          UpdateFields.status = [] := by
      refine List.filterMap_eq_nil_iff.mpr ?_
      intro u hu
      obtain ⟨j, hj⟩ := loop_mem_shape raws.length ai tts language fullPrompt raws 0 u hu
      subst hj; rfl
    simp only [runPipeline]
    rw [List.filterMap_append, List.filterMap_append, hloopnil]
    cases hres : (loopSlides raws.length ai tts language fullPrompt raws 0).2 with
    | error msg =>
      right
      simp [List.filterMap_cons, updProcessing, updFileStored, updSkeletons, updError]
    | ok processed =>
      left
      simp [List.filterMap_cons, updProcessing, updFileStored, updSkeletons, updFinal]

/-- C9: every update in a run that sets status `error` carries an error
message and changes nothing besides the status and the error message; in
particular the progress counter, the slides, the total duration and the
slide count keep their previous values. -/
theorem c9_error_update_frame (extracted : Except String (List RawSlide))
    (ai tts : Nat → Option String) (language fullPrompt : String) (st : LectureState) :
    ∀ u ∈ runPipeline extracted ai tts language fullPrompt, u.status = some "error" →
      ∃ msg, u.errorMessage = some msg ∧
        applyUpdate st u = { st with status := "error", errorMessage := some msg } := by
  intro u hu hst
  rcases runPipeline_mem extracted ai tts language fullPrompt u hu with
    h | h | ⟨r, h⟩ | ⟨n, j, h⟩ | ⟨m, h⟩ | ⟨ps, h⟩ <;> subst h
  · simp [updProcessing] at hst
  · simp [updFileStored] at hst
  · simp [updSkeletons] at hst
  · simp [updSlideProgress] at hst
  · exact ⟨m, rfl, rfl⟩
  · simp [updFinal] at hst

/-- Witness for C9: the extraction-failure run persists exactly the error
status and message, leaving a concrete document otherwise untouched. -/
theorem c9_witness :
    ∃ msg, (updError "Failed to process PDF file").errorMessage = some msg ∧
      applyUpdate
        { status := "processing", processingProgress := 37, slides := [],
          totalDuration := 0, errorMessage := none, slideCount := 0 }
        (updError "Failed to process PDF file") =
      { status := "error", processingProgress := 37, slides := [], totalDuration := 0,
        errorMessage := some msg, slideCount := 0 } :=
  c9_error_update_frame (Except.error "Failed to process PDF file") (fun _ => none)
    (fun _ => none) "english" "p"
    { status := "processing", processingProgress := 37, slides := [],
      totalDuration := 0, errorMessage := none, slideCount := 0 }
    (updError "Failed to process PDF file") (by decide) (by decide)

/-- C1 counterexample: the pipeline run calls the non-batch
`generateSpeech`, so a synthesis failure on slide 1 of 2 aborts the whole
run to `error`; the lecture does not reach `ready`. -/
theorem c1_counterexample :
    (finalLecture (Except.ok [⟨"first slide text", "img1"⟩, ⟨"second slide text", "img2"⟩])
        (fun _ => some "A long enough generated script for the slide, suitable for speech.")
        (fun i => if i = 0 then none else some "s3://audio/a.mp3") "english" "p").status =
      "error" ∧
    (finalLecture (Except.ok [⟨"first slide text", "img1"⟩, ⟨"second slide text", "img2"⟩])
        (fun _ => some "A long enough generated script for the slide, suitable for speech.")
        (fun i => if i = 0 then none else some "s3://audio/a.mp3") "english" "p").status ≠
      "ready" := by
  refine ⟨by decide, by decide⟩

/-- C1 amended: a run reaches `ready` only if every slide's synthesis
call succeeded — a single failure escalates to a whole-pipeline abort —
while the batch variant `generateSpeechBatch` (which the pipeline does
not call) does record a null audio reference with the error message for
a failed item, keeps processing the remaining items, and returns one
result per input. -/
theorem c1_amended :
    (∀ (raws : List RawSlide) (ai tts : Nat → Option String) (language fullPrompt : String),
      (finalLecture (Except.ok raws) ai tts language fullPrompt).status = "ready" →
        ∀ i, i < raws.length → tts i ≠ none) ∧
    (∀ (provider : Nat → Option String) (language : String) (texts : List TextItem)
        (j i : Nat) (t : TextItem), texts[i]? = some t → provider (j + i) = none →
      (generateSpeechBatch provider language texts j)[i]? = some
        { slideNumber := t.slideNumber, audioUrl := none, content := t.content,
          errorMsg := some "Failed to generate speech" }) ∧
    (∀ (provider : Nat → Option String) (language : String) (texts : List TextItem) (j : Nat),
      (generateSpeechBatch provider language texts j).length = texts.length) := by
  refine ⟨?_, ?_, ?_⟩
  · intro raws ai tts language fullPrompt hready i hi
    cases hres : (loopSlides raws.length ai tts language fullPrompt raws 0).2 with
    | error msg =>
      rw [finalLecture_loop_error hres] at hready
      simp at hready
    | ok processed =>
      obtain ⟨url, hurl, _⟩ :=
        (loop_ok_elems raws.length ai tts language fullPrompt raws 0 processed hres).2 i
          raws[i] (List.getElem?_eq_getElem hi)
      simp only [Nat.zero_add] at hurl
      simp [hurl]
  · intro provider language texts
    induction texts with
    | nil => intro j i t hj; simp at hj
    | cons t' ts ih =>
      intro j i t hj hp
      cases i with
      | zero =>
        simp only [List.getElem?_cons_zero, Option.some.injEq] at hj
        subst hj
        simp only [Nat.add_zero] at hp
        simp [generateSpeechBatch, batchItem, generateSpeech, hp]
      | succ i =>
        simp only [List.getElem?_cons_succ] at hj
        have := ih (j + 1) i t hj (by rw [show j + 1 + i = j + (i + 1) by omega]; exact hp)
        simpa [generateSpeechBatch] using this
  · intro provider language texts
    induction texts with
    | nil => intro j; rfl
    | cons t' ts ih => intro j; simp [generateSpeechBatch, ih]

/-- Witness for C1 amended: a fully successful one-slide run (so the
synthesis oracle is forced to be non-null), and a one-item batch whose
provider fails, recorded with null audio and the error message. -/
theorem c1_amended_witness :
    ((fun _ : Nat => (some "s3://audio/a1.mp3" : Option String)) 0 ≠ none) ∧
    (generateSpeechBatch (fun _ => none) "english" [⟨1, "hello there"⟩] 0)[0]? = some
      { slideNumber := 1, audioUrl := none, content := "hello there",
        errorMsg := some "Failed to generate speech" } :=
  ⟨c1_amended.1 [⟨"slide one text here", "img1"⟩]
      (fun _ => some "A sufficiently long generated script about slide one text here for us.")
      (fun _ => some "s3://audio/a1.mp3") "english" "p" (by decide) 0 (by decide),
   c1_amended.2.1 (fun _ => none) "english" [⟨1, "hello there"⟩] 0 0 ⟨1, "hello there"⟩
      (by decide) (by decide)⟩

theorem processPages_contents :
    ∀ (pages : List String) (i : Nat),
      (processPages pages i).map RawSlide.content =
        (pages.map jsTrimStr).filter fun b => decide (10 < b.length) := by
  intro pages
  induction pages with
  | nil => intro i; rfl
  | cons page rest ih =>
    intro i
    simp only [processPages, List.map_cons, List.filter_cons]
    by_cases h : 10 < (jsTrimStr page).length
    · simp [h, ih (i + 1)]
    · simp [h, ih (i + 1)]

theorem filter_short_blocks (l : List String) :
    (((l.filter fun p => 0 < (jsTrimStr p).length).map jsTrimStr).filter
        fun b => decide (10 < b.length)) =
      ((l.map jsTrimStr).filter fun b => decide (10 < b.length)) := by
  induction l with
  | nil => rfl
  | cons p rest ih =>
    by_cases h0 : 0 < (jsTrimStr p).length
    · by_cases h10 : 10 < (jsTrimStr p).length
      · simp [List.filter_cons, h0, h10, ih]
      · simp [List.filter_cons, h0, h10, ih]
    · have h10 : ¬10 < (jsTrimStr p).length := by omega
      simp [List.filter_cons, h0, h10, ih]

/-- C4 counterexample: a non-empty valid PDF whose text blocks are all of
trimmed length at most 10 extracts to zero slides without any error, and
the pipeline then completes to `ready` with zero slides. -/
theorem c4_counterexample :
    processPDF (some "hi\n\nok") = Except.ok [] ∧
    (finalLecture (Except.ok []) (fun _ => some "script text okay here")
        (fun _ => some "s3://audio/a.mp3") "english" "p").status = "ready" ∧
    (finalLecture (Except.ok []) (fun _ => some "script text okay here")
        (fun _ => some "s3://audio/a.mp3") "english" "p").slides = [] := by
  refine ⟨rfl, by decide, by decide⟩

/-- C4 amended: extraction signals an error only when the source cannot
be parsed; zero usable content blocks is not an error condition.  A
block becomes a slide exactly when its trimmed length exceeds 10, so a
non-empty document whose blocks are all short extracts to the empty
slide list, and the pipeline then completes to `ready` with zero
slides. -/
theorem c4_amended :
    processPDF none = Except.error "Failed to process PDF file" ∧
    (∀ text : String, ∃ slides, processPDF (some text) = Except.ok slides ∧
      slides.map RawSlide.content =
        ((jsSplitNN text).map jsTrimStr).filter fun b => decide (10 < b.length)) ∧
    (∀ (ai tts : Nat → Option String) (language fullPrompt : String),
      (finalLecture (Except.ok []) ai tts language fullPrompt).status = "ready" ∧
      (finalLecture (Except.ok []) ai tts language fullPrompt).slides = []) := by
  refine ⟨rfl, ?_, ?_⟩
  · intro text
    refine ⟨_, rfl, ?_⟩
    rw [processPages_contents]
    exact filter_short_blocks _
  · intro ai tts language fullPrompt
    have hres : (loopSlides ([] : List RawSlide).length ai tts language fullPrompt
        [] 0).2 = Except.ok [] := rfl
    rw [finalLecture_ok hres]
    exact ⟨rfl, rfl⟩

/-- C7: evaluation of the code at a failing input.  In a fully successful
one-slide run the persisted slide carries duration 0 and the lecture's
total duration is 0 (the sum of the per-slide durations), even though the
words-per-minute estimator applied to the generated script yields 5
seconds; no measured or estimated duration is ever attached. -/
theorem c7_duration_never_attached :
    (finalLecture (Except.ok [⟨"slide one text here", "img1"⟩])
        (fun _ => some "A sufficiently long generated script about slide one text here for us.")
        (fun _ => some "s3://audio/a1.mp3") "english" "p").slides.map Slide.duration = [0] ∧
    (finalLecture (Except.ok [⟨"slide one text here", "img1"⟩])
        (fun _ => some "A sufficiently long generated script about slide one text here for us.")
        (fun _ => some "s3://audio/a1.mp3") "english" "p").totalDuration = 0 ∧
    estimateAudioDuration
      "A sufficiently long generated script about slide one text here for us." "english" = 5 ∧
    (5 : Nat) ≠ 0 := by
  refine ⟨by decide, by decide, by decide, by decide⟩

/-- C2 counterexample: a refusal completion is cleaned and persisted as
the slide's final script even though it fails validation, because the
generation path never calls `validateGeneratedContent`; the persisted
script is not the fallback either. -/
theorem c2_counterexample :
    (finalLecture (Except.ok [⟨"Example slide content", "img1"⟩])
        (fun _ => some "I cannot verify that, so here is a brief overview of the slide instead.")
        (fun _ => some "s3://audio/a.mp3") "english" "p").slides.map Slide.aiScript =
      [some "I cannot verify that, so here is a brief overview of the slide instead."] ∧
    validateGeneratedContent
      "I cannot verify that, so here is a brief overview of the slide instead." = false ∧
    "I cannot verify that, so here is a brief overview of the slide instead." ≠
      generateFallbackContent "Example slide content" "english" := by
  refine ⟨by decide, by decide, by decide⟩

/-- C2 amended: every script persisted as a slide's final generated
script is either the cleaned provider output — with no validation
applied, so an invalid script can be persisted as final — or, when the
provider call failed, the deterministic fallback script. -/
theorem c2_amended (raws : List RawSlide) (ai tts : Nat → Option String)
    (language fullPrompt : String) (processed : List Slide)
    (hres : (loopSlides raws.length ai tts language fullPrompt raws 0).2 =
      Except.ok processed) :
    ∀ j r, raws[j]? = some r →
      ∃ s, processed[j]? = some s ∧
        ((∃ out, ai j = some out ∧ s.aiScript = some (cleanGeneratedContent out)) ∨
         (ai j = none ∧ s.aiScript = some (generateFallbackContent r.content language))) := by
  intro j r hj
  obtain ⟨url, _, hslide⟩ :=
    (loop_ok_elems raws.length ai tts language fullPrompt raws 0 processed hres).2 j r hj
  simp only [Nat.zero_add] at hslide
  refine ⟨_, hslide, ?_⟩
  cases hai : ai j with
  | some out => exact Or.inl ⟨out, rfl, by simp [generateLectureContent, hai]⟩
  | none => exact Or.inr ⟨rfl, by simp [generateLectureContent, hai]⟩

/-- Witness for C2 amended at a concrete run whose provider returns a
refusal string: the persisted script is the cleaned provider output. -/
theorem c2_amended_witness :
    ∃ s, ([(⟨1, "img1", "Example slide content",
        some "I cannot verify that, so here is a brief overview of the slide instead.",
        some "s3://audio/a.mp3", 0⟩ : Slide)])[0]? = some s ∧
      ((∃ out, (fun _ : Nat =>
          (some "I cannot verify that, so here is a brief overview of the slide instead."
            : Option String)) 0 = some out ∧
          s.aiScript = some (cleanGeneratedContent out)) ∨
       ((fun _ : Nat =>
          (some "I cannot verify that, so here is a brief overview of the slide instead."
            : Option String)) 0 = none ∧
          s.aiScript =
            some (generateFallbackContent "Example slide content" "english"))) :=
  c2_amended [⟨"Example slide content", "img1"⟩]
    (fun _ => some "I cannot verify that, so here is a brief overview of the slide instead.")
    (fun _ => some "s3://audio/a.mp3") "english" "p"
    [(⟨1, "img1", "Example slide content",
        some "I cannot verify that, so here is a brief overview of the slide instead.",
        some "s3://audio/a.mp3", 0⟩ : Slide)]
    rfl 0 ⟨"Example slide content", "img1"⟩ (by decide)

/-- C8: the fallback script is deterministic and total — it starts with
the language-keyed greeting (English for any language absent from the
table), depends only on the first 200 characters of the slide text, and
is never empty, in particular for the empty slide text. -/
theorem c8_fallback_deterministic (content language : String) :
    (∃ rest, (generateFallbackContent content language).data =
      (languageGreeting language).data ++ rest) ∧
    generateFallbackContent content language =
      generateFallbackContent (jsSubstringTo 200 content) language ∧
    (language ∉ (["english", "russian", "spanish", "french", "german"] : List String) →
      languageGreeting language = "Hello everyone,") ∧
    generateFallbackContent content language ≠ "" := by
  have hg : (languageGreeting language).data ≠ [] := by
    unfold languageGreeting
    split_ifs <;> decide
  refine ⟨?_, ?_, ?_, ?_⟩
  · refine ⟨(" today we will be discussing the following topic: " ++
      jsSubstringTo 200 content ++
      ". This is an important subject that we need to understand thoroughly. Let me explain the key points and provide some examples to help clarify the concepts.").data, ?_⟩
    simp [generateFallbackContent, String.data_append, List.append_assoc]
  · simp [generateFallbackContent, jsSubstringTo, List.take_take]
  · intro h
    simp only [List.mem_cons, List.not_mem_nil, or_false, not_or] at h
    simp [languageGreeting, h.1, h.2.1, h.2.2.1, h.2.2.2.1, h.2.2.2.2]
  · intro hemp
    have hd := congrArg String.data hemp
    simp only [generateFallbackContent, String.data_append] at hd
    rcases List.append_eq_nil.mp (List.append_eq_nil.mp (List.append_eq_nil.mp hd).1).1
      with ⟨h1, _⟩
    exact hg h1

/-- Witness for C8 at the empty slide text and a language absent from
the greeting table. -/
theorem c8_witness :
    (∃ rest, (generateFallbackContent "" "latin").data =
      (languageGreeting "latin").data ++ rest) ∧
    generateFallbackContent "" "latin" =
      generateFallbackContent (jsSubstringTo 200 "") "latin" ∧
    languageGreeting "latin" = "Hello everyone," ∧
    generateFallbackContent "" "latin" ≠ "" :=
  ⟨(c8_fallback_deterministic "" "latin").1,
   (c8_fallback_deterministic "" "latin").2.1,
   (c8_fallback_deterministic "" "latin").2.2.1 (by decide),
   (c8_fallback_deterministic "" "latin").2.2.2⟩

theorem collapseWS_cons_nonspace {d : Char} (cs : List Char) (h : isJsSpace d = false) :
    collapseWS (d :: cs) = d :: collapseWS cs := by
  cases cs <;> simp [collapseWS, h]

theorem spaces_collapseWS :
    ∀ (l : List Char), ∀ c ∈ collapseWS l, isJsSpace c = true → c = ' ' := by
  intro l
  induction l with
  | nil => intro c hc; simp [collapseWS] at hc
  | cons a cs ih =>
    cases cs with
    | nil =>
      intro c hc hsp
      by_cases ha : isJsSpace a
      · simp [collapseWS, ha] at hc; simp [hc]
      · simp [collapseWS, ha] at hc; subst hc; simp [ha] at hsp
    | cons d cs' =>
      intro c hc hsp
      by_cases ha : isJsSpace a
      · by_cases hd : isJsSpace d
        · simp [collapseWS, ha, hd] at hc
          exact ih c hc hsp
        · simp [collapseWS, ha, hd] at hc
          rcases hc with hc | hc
          · simp [hc]
          · exact ih c hc hsp
      · simp [collapseWS, ha] at hc
        rcases hc with hc | hc
        · subst hc; simp [ha] at hsp
        · exact ih c hc hsp

theorem chain_collapseWS : ∀ (l : List Char), List.Chain' noTwoSpaces (collapseWS l) := by
  intro l
  induction l with
  | nil => simp [collapseWS]
  | cons a cs ih =>
    cases cs with
    | nil =>
      by_cases ha : isJsSpace a <;> simp [collapseWS, ha]
    | cons d cs' =>
      by_cases ha : isJsSpace a
      · by_cases hd : isJsSpace d
        · simpa [collapseWS, ha, hd] using ih
        · have hcw : collapseWS (a :: d :: cs') = ' ' :: collapseWS (d :: cs') := by
            simp [collapseWS, ha, hd]
          rw [hcw]
          refine List.chain'_cons'.mpr ⟨?_, ih⟩
          intro y hy
          rw [collapseWS_cons_nonspace cs' (by simpa using hd)] at hy
          simp at hy
          subst hy
          intro _
          simpa using hd
      · have hcw : collapseWS (a :: d :: cs') = a :: collapseWS (d :: cs') := by
          simp [collapseWS, ha]
        rw [hcw]
        refine List.chain'_cons'.mpr ⟨?_, ih⟩
        intro y _ habs
        simp [ha] at habs

theorem collapseWS_id :
    ∀ (l : List Char), (∀ c ∈ l, isJsSpace c = true → c = ' ') →
      List.Chain' noTwoSpaces l → collapseWS l = l := by
  intro l
  induction l with
  | nil => intro _ _; rfl
  | cons a cs ih =>
    cases cs with
    | nil =>
      intro hmem _
      by_cases ha : isJsSpace a
      · have := hmem a (by simp) ha
        simp [collapseWS, ha, this]
      · simp [collapseWS, ha]
    | cons d cs' =>
      intro hmem hch
      have hch' := List.chain'_cons.mp hch
      have ihr := ih (fun c hc h => hmem c (List.mem_cons_of_mem _ hc) h) hch'.2
      by_cases ha : isJsSpace a
      · have ha' := hmem a (by simp) ha
        have hd : isJsSpace d = false := hch'.1 ha
        simp [collapseWS, ha, hd, ihr, ha']
      · simp [collapseWS, ha, ihr]

theorem collapseNL_id :
    ∀ (l : List Char), (∀ c ∈ l, c ≠ '\n') → collapseNL l = l := by
  intro l
  induction l with
  | nil => intro _; rfl
  | cons a cs ih =>
    cases cs with
    | nil =>
      intro hmem
      have := hmem a (by simp)
      simp [collapseNL, this]
    | cons d cs' =>
      intro hmem
      have ha := hmem a (by simp)
      simp [collapseNL, ha, ih (fun c hc => hmem c (List.mem_cons_of_mem _ hc))]

theorem mem_of_mem_dropWhile {c : Char} {p : Char → Bool} {l : List Char}
    (h : c ∈ List.dropWhile p l) : c ∈ l :=
  (List.dropWhile_suffix p).sublist.subset h

theorem mem_of_mem_jsTrim {c : Char} {l : List Char} (h : c ∈ jsTrim l) : c ∈ l := by
  have h1 : c ∈ List.dropWhile isJsSpace (List.dropWhile isJsSpace l).reverse := by
    simpa [jsTrim, List.rdropWhile] using h
  have h2 := mem_of_mem_dropWhile h1
  rw [List.mem_reverse] at h2
  exact mem_of_mem_dropWhile h2

theorem chain_jsTrim {R : Char → Char → Prop} {l : List Char}
    (h : List.Chain' R l) : List.Chain' R (jsTrim l) := by
  have h1 : List.Chain' R (List.dropWhile isJsSpace l) :=
    h.suffix (List.dropWhile_suffix _)
  have h2 : List.Chain' (flip R) (List.dropWhile isJsSpace l).reverse :=
    List.chain'_reverse.mpr h1
  have h3 : List.Chain' (flip R)
      (List.dropWhile isJsSpace (List.dropWhile isJsSpace l).reverse) :=
    h2.suffix (List.dropWhile_suffix _)
  have h4 := List.chain'_reverse.mpr h3
  simpa [jsTrim, List.rdropWhile] using h4

theorem dropWhile_head_not {p : Char → Bool} :
    ∀ (l : List Char) (c : Char), (List.dropWhile p l).head? = some c → p c = false := by
  intro l
  induction l with
  | nil => intro c h; simp at h
  | cons a cs ih =>
    intro c h
    by_cases hp : p a
    · rw [List.dropWhile_cons_of_pos hp] at h
      exact ih c h
    · rw [List.dropWhile_cons_of_neg hp] at h
      simp at h
      subst h
      simpa using hp

theorem rdropWhile_head? {p : Char → Bool} {y : List Char} {c : Char}
    (h : (List.rdropWhile p y).head? = some c) : y.head? = some c := by
  obtain ⟨t, ht⟩ := List.rdropWhile_prefix p y
  cases hr : List.rdropWhile p y with
  | nil => rw [hr] at h; simp at h
  | cons a r' =>
    rw [hr] at h ht
    simp at h
    subst h
    rw [← ht]
    rfl

theorem jsTrim_head_not {l : List Char} {c : Char}
    (h : (jsTrim l).head? = some c) : isJsSpace c = false :=
  dropWhile_head_not l c (rdropWhile_head? h)

theorem jsTrim_last_not {l : List Char} {c : Char}
    (h : (jsTrim l).getLast? = some c) : isJsSpace c = false := by
  have h1 : (List.dropWhile isJsSpace (List.dropWhile isJsSpace l).reverse).head? =
      some c := by
    rw [← List.getLast?_reverse]
    simpa [jsTrim, List.rdropWhile] using h
  exact dropWhile_head_not _ c h1

theorem dropWhile_id_of_head {p : Char → Bool} {l : List Char}
    (h : ∀ c, l.head? = some c → p c = false) : List.dropWhile p l = l := by
  cases l with
  | nil => rfl
  | cons a cs =>
    have := h a rfl
    simp [List.dropWhile_cons, this]

theorem jsTrim_id {l : List Char}
    (hh : ∀ c, l.head? = some c → isJsSpace c = false)
    (hl : ∀ c, l.getLast? = some c → isJsSpace c = false) : jsTrim l = l := by
  have h1 : List.dropWhile isJsSpace l = l := dropWhile_id_of_head hh
  have h2 : List.dropWhile isJsSpace l.reverse = l.reverse := by
    refine dropWhile_id_of_head ?_
    intro c hc
    rw [List.head?_reverse] at hc
    exact hl c hc
  simp [jsTrim, List.rdropWhile, h1, h2]

theorem stripQuotes_id {l : List Char}
    (hh : ∀ c, l.head? = some c → isQuote c = false)
    (hl : ∀ c, l.getLast? = some c → isQuote c = false) : stripQuotes l = l := by
  have h1 : dropHeadQuote l = l := by
    cases l with
    | nil => rfl
    | cons c cs => simp [dropHeadQuote, hh c rfl]
  rw [stripQuotes, h1, dropLastQuote]
  cases hg : l.getLast? with
  | none => rfl
  | some c => simp [hl c hg]

theorem clean_spaces (s : String) :
    ∀ c ∈ (cleanGeneratedContent s).data, isJsSpace c = true → c = ' ' := by
  intro c hc hsp
  simp only [cleanGeneratedContent] at hc
  exact spaces_collapseWS _ c (mem_of_mem_jsTrim hc) hsp

theorem clean_chain (s : String) :
    List.Chain' noTwoSpaces (cleanGeneratedContent s).data := by
  simp only [cleanGeneratedContent]
  exact chain_jsTrim (chain_collapseWS _)

theorem clean_head (s : String) :
    ∀ c, (cleanGeneratedContent s).data.head? = some c → isJsSpace c = false := by
  intro c hc
  simp only [cleanGeneratedContent] at hc
  exact jsTrim_head_not hc

theorem clean_last (s : String) :
    ∀ c, (cleanGeneratedContent s).data.getLast? = some c → isJsSpace c = false := by
  intro c hc
  simp only [cleanGeneratedContent] at hc
  exact jsTrim_last_not hc

/-- C6 counterexample: on a doubly quoted input, a second application of
`cleanGeneratedContent` strips a further quote pair, so the function is
not idempotent. -/
theorem c6_counterexample :
    cleanGeneratedContent (cleanGeneratedContent "\"\"a\"\"") ≠
      cleanGeneratedContent "\"\"a\"\"" := by decide

/-- C6 amended: `cleanGeneratedContent` is idempotent on every input
whose cleaned result neither starts nor ends with a quote character; in
general a second application can strip one further leading and trailing
quote. -/
theorem c6_amended (s : String)
    (h1 : startsWithQuote (cleanGeneratedContent s) = false)
    (h2 : endsWithQuote (cleanGeneratedContent s) = false) :
    cleanGeneratedContent (cleanGeneratedContent s) = cleanGeneratedContent s := by
  have hh : ∀ c, (cleanGeneratedContent s).data.head? = some c → isQuote c = false := by
    intro c hc
    rw [startsWithQuote] at h1
    cases hd : (cleanGeneratedContent s).data with
    | nil => rw [hd] at hc; simp at hc
    | cons a t =>
      rw [hd] at hc h1
      simp at hc
      subst hc
      exact h1
  have hl : ∀ c, (cleanGeneratedContent s).data.getLast? = some c → isQuote c = false := by
    intro c hc
    rw [endsWithQuote, hc] at h2
    exact h2
  have hq : stripQuotes (cleanGeneratedContent s).data = (cleanGeneratedContent s).data :=
    stripQuotes_id hh hl
  have hnl : collapseNL (cleanGeneratedContent s).data = (cleanGeneratedContent s).data := by
    refine collapseNL_id _ ?_
    intro c hc hne
    subst hne
    have := clean_spaces s _ hc (by decide)
    exact absurd this (by decide)
  have hws : collapseWS (cleanGeneratedContent s).data = (cleanGeneratedContent s).data :=
    collapseWS_id _ (clean_spaces s) (clean_chain s)
  have htr : jsTrim (cleanGeneratedContent s).data = (cleanGeneratedContent s).data :=
    jsTrim_id (clean_head s) (clean_last s)
  show (⟨jsTrim (collapseWS (collapseNL (stripQuotes (cleanGeneratedContent s).data)))⟩
    : String) = cleanGeneratedContent s
  rw [hq, hnl, hws, htr]

/-- Witness for C6 amended at a concrete input whose cleaned result is
quote-free at both ends. -/
theorem c6_amended_witness :
    startsWithQuote (cleanGeneratedContent "Hello world.") = false ∧
    endsWithQuote (cleanGeneratedContent "Hello world.") = false ∧
    cleanGeneratedContent (cleanGeneratedContent "Hello world.") =
      cleanGeneratedContent "Hello world." :=
  ⟨by decide, by decide, c6_amended "Hello world." (by decide) (by decide)⟩

theorem allowed_not_cyrillic {c : Char}
    (h : isWordChar c = true ∨ c = ' ' ∨ c = '.' ∨ c = ',' ∨ c = '!' ∨ c = '?' ∨ c = '-') :
    isCyrillicLetter c = false := by
  rcases h with h | h | h | h | h | h | h
  · simp only [isWordChar, decide_eq_true_eq] at h
    simp only [isCyrillicLetter, decide_eq_false_iff_not]
    omega
  all_goals subst h; decide

theorem allowed_not_eszett {c : Char}
    (h : isWordChar c = true ∨ c = ' ' ∨ c = '.' ∨ c = ',' ∨ c = '!' ∨ c = '?' ∨ c = '-') :
    c ≠ 'ß' := by
  rcases h with h | h | h | h | h | h | h
  · intro heq; subst heq; exact absurd h (by decide)
  all_goals subst h; decide

theorem map_cyr_id {l : List Char} (h : ∀ c ∈ l, isCyrillicLetter c = false) :
    l.map (fun c => if isCyrillicLetter c then cyrillicLower c else c) = l := by
  induction l with
  | nil => rfl
  | cons a cs ih =>
    simp [h a (by simp), ih (fun c hc => h c (List.mem_cons_of_mem _ hc))]

theorem replaceEszett_id {l : List Char} (h : ∀ c ∈ l, c ≠ 'ß') : replaceEszett l = l := by
  induction l with
  | nil => rfl
  | cons a cs ih =>
    simp [replaceEszett, h a (by simp),
      ih (fun c hc => h c (List.mem_cons_of_mem _ hc))]

/-- C10: the output of `prepareTextForTTS` contains only ASCII word
characters, the space character and the punctuation `. , ! ? -` — every
other character, in particular every non-ASCII letter, is removed before
the language-specific normalization runs, which is therefore a no-op for
every language — and the output length never exceeds 4003 characters
(4000 plus the appended ellipsis). -/
theorem c10_prepared_text_safe (text language : String) :
    (∀ c ∈ (prepareTextForTTS text language).data,
      isWordChar c = true ∨ c = ' ' ∨ c = '.' ∨ c = ',' ∨ c = '!' ∨ c = '?' ∨ c = '-') ∧
    (prepareTextForTTS text language).length ≤ 4003 ∧
    prepareTextForTTS text language = prepareTextForTTS text "english" := by
  have hchars : ∀ c ∈ jsTrim ((collapseWS text.data).filter isTTSSafeChar),
      isWordChar c = true ∨ c = ' ' ∨ c = '.' ∨ c = ',' ∨ c = '!' ∨ c = '?' ∨ c = '-' := by
    intro c hc
    have hmem := mem_of_mem_jsTrim hc
    rw [List.mem_filter] at hmem
    have hsafe := hmem.2
    simp only [isTTSSafeChar, Bool.or_eq_true, decide_eq_true_eq] at hsafe
    rcases hsafe with ((((((hw | hs) | h) | h) | h) | h) | h)
    · exact .inl hw
    · exact .inr (.inl (spaces_collapseWS _ c hmem.1 hs))
    all_goals tauto
  have hlang : ∀ lang : String, prepareTextForTTS text lang =
      (if (jsTrim ((collapseWS text.data).filter isTTSSafeChar)).length > 4000
       then (⟨(jsTrim ((collapseWS text.data).filter isTTSSafeChar)).take 4000 ++
          ['.', '.', '.']⟩ : String)
       else ⟨jsTrim ((collapseWS text.data).filter isTTSSafeChar)⟩) := by
    intro lang
    by_cases hr : lang = "russian"
    · subst hr
      simp only [prepareTextForTTS, if_true]
      rw [map_cyr_id (fun c hc => allowed_not_cyrillic (hchars c hc))]
    · by_cases hg : lang = "german"
      · subst hg
        simp only [prepareTextForTTS]
        rw [if_neg (by decide : ¬("german" = "russian"))]
        simp only [if_true]
        rw [replaceEszett_id (fun c hc => allowed_not_eszett (hchars c hc))]
      · simp only [prepareTextForTTS]
        rw [if_neg hr, if_neg hg]
  refine ⟨?_, ?_, ?_⟩
  · intro c hc
    rw [hlang language] at hc
    split_ifs at hc with h
    · have hd : (⟨(jsTrim ((collapseWS text.data).filter isTTSSafeChar)).take 4000 ++
          ['.', '.', '.']⟩ : String).data =
          (jsTrim ((collapseWS text.data).filter isTTSSafeChar)).take 4000 ++
          ['.', '.', '.'] := rfl
      rw [hd, List.mem_append] at hc
      rcases hc with hc | hc
      · exact hchars c ((List.take_sublist _ _).subset hc)
      · simp at hc
        subst hc
        exact .inr (.inr (.inl rfl))
    · exact hchars c hc
  · rw [hlang language]
    split_ifs with h
    · have hd : (⟨(jsTrim ((collapseWS text.data).filter isTTSSafeChar)).take 4000 ++
          ['.', '.', '.']⟩ : String).length =
          ((jsTrim ((collapseWS text.data).filter isTTSSafeChar)).take 4000 ++
          ['.', '.', '.']).length := rfl
      rw [hd]
      simp [List.length_take]
    · have hd : (⟨jsTrim ((collapseWS text.data).filter isTTSSafeChar)⟩ : String).length =
          (jsTrim ((collapseWS text.data).filter isTTSSafeChar)).length := rfl
      rw [hd]
      omega
  · rw [hlang language, hlang "english"]

/-- Witness for C10 at a Russian input containing Cyrillic letters: they
are all removed, the result is the trimmed safe remainder, and the
language branch is a no-op. -/
theorem c10_witness :
    prepareTextForTTS "Привет мир! hello" "russian" = "! hello" ∧
    (isWordChar '!' = true ∨ '!' = ' ' ∨ '!' = '.' ∨ '!' = ',' ∨ '!' = '!' ∨ '!' = '?' ∨
      '!' = '-') ∧
    (prepareTextForTTS "Привет мир! hello" "russian").length ≤ 4003 ∧
    prepareTextForTTS "Привет мир! hello" "russian" =
      prepareTextForTTS "Привет мир! hello" "english" :=
  ⟨by decide,
   (c10_prepared_text_safe "Привет мир! hello" "russian").1 '!' (by decide),
   (c10_prepared_text_safe "Привет мир! hello" "russian").2.1,
   (c10_prepared_text_safe "Привет мир! hello" "russian").2.2⟩
